import Mathlib

/-!
Verification of the Upload Orchestration Engine of telegram_uploader_gui_python.py
(class UploadWorker), as a shallow embedding.  Network responses, thread-pool
completion order and the shared cancellation flag are supplied as explicit
environments; sleeps are recorded as an event trace.
-/

namespace TgUploader

/-- Supported image extensions (IMAGE_EXTS in the source). -/
def IMAGE_EXTS : List String :=
  [".jpg", ".jpeg", ".png", ".webp", ".gif", ".tiff", ".bmp", ".heic"]

/-- Supported video extensions (VIDEO_EXTS in the source). -/
def VIDEO_EXTS : List String :=
  [".mp4", ".mov", ".mkv", ".avi", ".webm", ".flv", ".3gp", ".ts", ".wmv", ".m4v"]

/-- A media file as the engine sees it: its name, its path suffix, and the byte
size returned by stat at the moment the engine inspects it. -/
structure MFile where
  name : String
  ext : String
  size : Nat
deriving Repr, DecidableEq

/-- Character-wise ASCII lower-casing of a string (the lower() call applied to
path suffixes, which are ASCII). -/
def lowercase (s : String) : String := ⟨s.data.map Char.toLower⟩

/-- Embeds is_image: the lower-cased suffix is a supported image extension. -/
def is_image (f : MFile) : Bool := decide (lowercase f.ext ∈ IMAGE_EXTS)

/-- Embeds is_video: the lower-cased suffix is a supported video extension. -/
def is_video (f : MFile) : Bool := decide (lowercase f.ext ∈ VIDEO_EXTS)

/-- Embeds get_media_files: keep files with a supported extension and a
positive stat size (empty or inaccessible files are skipped with a log). -/
def get_media_files (folder : List MFile) : List MFile :=
  folder.filter (fun p => (is_image p || is_video p) && decide (0 < p.size))

/-- The structured part of a parsed Telegram API response used by the retry
loop: the ok flag, error_code, and parameters.retry_after. -/
structure TgResp where
  ok : Bool
  error_code : Option Nat
  retry_after : Option Nat
deriving Repr, DecidableEq

/-- What one attempt of request_with_retries runs into: preparing the
multipart files raised (sleep 0.5s and continue), the HTTP post raised a
Timeout or RequestException (backoff and continue), or the post returned a
response whose JSON parses to some TgResp or to nothing. -/
inductive AttemptOutcome
  | prepFail
  | netFail
  | response (j : Option TgResp)
deriving Repr, DecidableEq

/-- A sleep performed by the retry loop: the 0.5s file-preparation sleep, one
exponential-backoff sleep of the given duration, or a single one-second tick
of the interruptible retry_after loop. -/
inductive SleepEv
  | prepSleep
  | backoff (d : ℚ)
  | secTick
deriving Repr, DecidableEq

/-- Result of request_with_retries: the returned value on success (the parsed
JSON, or none when the body was unparseable and the raw response is returned),
or the RuntimeError raised after the attempt budget is spent. -/
inductive ReqResult
  | success (j : Option TgResp)
  | exhausted (retries : Nat)
deriving Repr, DecidableEq

/-- BASE_BACKOFF = 1.0 in the source. -/
def BASE_BACKOFF : ℚ := 1

/-- Embeds the interruptible retry_after sleep: for each of the remaining
seconds, the stop flag is checked (consuming one tick of the cancellation
schedule) and, if it is unset, one second is slept.  Returns the emitted
sleep events and the next tick index. -/
def sleepLoop429 (stop : Nat → Bool) : Nat → Nat → List SleepEv × Nat
  | tick, 0 => ([], tick)
  | tick, Nat.succ n =>
    if stop tick then ([], tick + 1)
    else
      let r := sleepLoop429 stop (tick + 1) n
      (SleepEv.secTick :: r.1, r.2)

/-- Embeds the while-loop of request_with_retries.  The fuel argument is the
number of attempts still allowed (retries - attempt); outcome gives the result
of each attempt by its 1-based number, jitter the random.random() sample drawn
for that attempt, and stop the cancellation flag sampled at successive check
points.  Returns the result, the trace of sleeps, and the attempts used. -/
def reqLoop (outcome : Nat → AttemptOutcome) (jitter : Nat → ℚ) (stop : Nat → Bool)
    (retries : Nat) : Nat → Nat → Nat → ReqResult × List SleepEv × Nat
  | 0, attempt, _ => (ReqResult.exhausted retries, [], attempt)
  | fuel + 1, attempt, tick =>
    if stop tick then (ReqResult.exhausted retries, [], attempt)
    else
      match outcome (attempt + 1) with
      | AttemptOutcome.prepFail =>
          let r := reqLoop outcome jitter stop retries fuel (attempt + 1) (tick + 1)
          (r.1, SleepEv.prepSleep :: r.2.1, r.2.2)
      | AttemptOutcome.netFail =>
          let r := reqLoop outcome jitter stop retries fuel (attempt + 1) (tick + 1)
          (r.1, SleepEv.backoff (BASE_BACKOFF * 2 ^ attempt + jitter (attempt + 1)) :: r.2.1, r.2.2)
      | AttemptOutcome.response none => (ReqResult.success none, [], attempt + 1)
      | AttemptOutcome.response (some j) =>
          if j.ok then (ReqResult.success (some j), [], attempt + 1)
          else if j.error_code = some 429 then
            match j.retry_after with
            | some ra =>
                let s := sleepLoop429 stop (tick + 1) (ra + 1)
                let r := reqLoop outcome jitter stop retries fuel (attempt + 1) s.2
                (r.1, s.1 ++ r.2.1, r.2.2)
            | none =>
                let r := reqLoop outcome jitter stop retries fuel (attempt + 1) (tick + 1)
                (r.1, SleepEv.backoff (BASE_BACKOFF * 2 ^ attempt + jitter (attempt + 1)) :: r.2.1, r.2.2)
          else
            let r := reqLoop outcome jitter stop retries fuel (attempt + 1) (tick + 1)
            (r.1, SleepEv.backoff (BASE_BACKOFF * 2 ^ attempt + jitter (attempt + 1)) :: r.2.1, r.2.2)

/-- Embeds request_with_retries: run the attempt loop with the full retry
budget, starting at attempt 0 and cancellation tick 0. -/
def request_with_retries (outcome : Nat → AttemptOutcome) (jitter : Nat → ℚ)
    (stop : Nat → Bool) (retries : Nat) : ReqResult × List SleepEv × Nat :=
  reqLoop outcome jitter stop retries retries 0 0

/-- An attempt outcome that does not make request_with_retries return: a
failed file preparation, a raised network error, or a structured response
whose ok field is false. -/
def unsuccessful : AttemptOutcome → Bool
  | AttemptOutcome.prepFail => true
  | AttemptOutcome.netFail => true
  | AttemptOutcome.response none => false
  | AttemptOutcome.response (some j) => !j.ok

/-- The kind of single-file request issued by send_single_by_type: sendPhoto,
sendVideo or sendDocument. -/
inductive SendOp
  | photo
  | video
  | document
deriving Repr, DecidableEq

/-- Embeds send_single_by_type.  The net environment gives, per operation
kind, whether the wrapped request_with_retries call returned a value (ok) or
raised (error).  Returns the Python return value (none models the Python None
returned on an empty file, an unsupported suffix, or an error swallowed by
the enclosing except) together with the list of network operations actually
attempted for the file.  The function itself never raises: its outer
try/except converts every exception into a None return. -/
def send_single_by_type (asDoc : Bool) (net : SendOp → Except Unit (Option TgResp))
    (f : MFile) : Option (Option TgResp) × List SendOp :=
  if f.size = 0 then (none, [])
  else if asDoc then
    match net SendOp.document with
    | Except.ok r => (some r, [SendOp.document])
    | Except.error _ => (none, [SendOp.document])
  else if is_image f then
    match net SendOp.photo with
    | Except.ok r => (some r, [SendOp.photo])
    | Except.error _ => (none, [SendOp.photo])
  else if is_video f then
    match net SendOp.video with
    | Except.ok r => (some r, [SendOp.video])
    | Except.error _ =>
      match net SendOp.document with
      | Except.ok r => (some r, [SendOp.video, SendOp.document])
      | Except.error _ => (none, [SendOp.video, SendOp.document])
  else (none, [])

/-- Embeds the as_document loop inside send_media_group: each valid file is
sent via send_single_by_type as a document, the post-upload action is applied
to it, and only then is the stop flag checked.  Returns the names of the
files the post-upload action was applied to. -/
def docLoop (net : String → SendOp → Except Unit (Option TgResp)) (stop : Nat → Bool) :
    Nat → List MFile → List String
  | _, [] => []
  | k, f :: fs =>
    let _r := send_single_by_type true (net f.name) f
    if stop k then [f.name]
    else f.name :: docLoop net stop (k + 1) fs

/-- What a call to send_media_group did: its Python return value (an error
models the exception raised when the grouped request fails after its retries;
the first tuple component collapses the api response or per-file result list
to some, and the Python None to none; the second component is the list of
paths the function reports as processed), the files whose freshly opened
handles the multipart request body was built from, and the files the
as_document branch applied the post-upload action to. -/
structure GroupSendOut where
  result : Except Unit (Option Unit × List MFile)
  multipart : List MFile
  posted : List String

/-- Embeds send_media_group.  Empty or inaccessible files are filtered out;
with no valid file the call returns (None, []).  In as_document mode every
valid file goes through the sequential document loop and the whole valid list
is returned as processed.  Otherwise the multipart body is built from the
first 10 valid files only, the grouped request is issued through
request_with_retries (max_retries=2), and on success the call returns the
response together with the entire valid list as processed; a request failure
propagates as an exception. -/
def send_media_group (asDoc : Bool) (netGroup : Except Unit Unit)
    (net : String → SendOp → Except Unit (Option TgResp)) (stop : Nat → Bool)
    (paths : List MFile) : GroupSendOut :=
  if paths.isEmpty then ⟨Except.ok (none, []), [], []⟩
  else
    let valid := paths.filter (fun p => decide (0 < p.size))
    if valid.isEmpty then ⟨Except.ok (none, []), [], []⟩
    else if asDoc then
      ⟨Except.ok (some (), valid), [], docLoop net stop 0 valid⟩
    else
      let multipart := valid.take 10
      match netGroup with
      | Except.ok _ => ⟨Except.ok (some (), valid), multipart, []⟩
      | Except.error _ => ⟨Except.error (), multipart, []⟩

/-- Trace of one sequential per-file loop of process_batch: the names appended
to files_processed, the files send_single_by_type was invoked for, the files
the post-upload action was applied to, and the network operations attempted. -/
structure SinglesOut where
  processed : List String
  calls : List String
  posted : List String
  ops : List (String × SendOp)
deriving Repr, DecidableEq

/-- Embeds the per-file loops of process_batch (both the fallback loop after
an album that reported no processed paths and the individual-upload loop):
the stop flag is checked before each file; then the file is sent via
send_single_by_type, whose return value is ignored and which never raises, so
the file name is appended to files_processed, the post-upload action runs and
the shared counter is incremented regardless of the send outcome. -/
def runSingles (asDoc : Bool) (net : String → SendOp → Except Unit (Option TgResp))
    (stop : Nat → Bool) : Nat → List MFile → SinglesOut
  | _, [] => ⟨[], [], [], []⟩
  | k, f :: fs =>
    if stop k then ⟨[], [], [], []⟩
    else
      let r := send_single_by_type asDoc (net f.name) f
      let rest := runSingles asDoc net stop (k + 1) fs
      ⟨f.name :: rest.processed, f.name :: rest.calls, f.name :: rest.posted,
        r.2.map (fun op => (f.name, op)) ++ rest.ops⟩

/-- What one process_batch call did: its return value (none models the Python
None returned when the stop flag was already set; some l is the
files_processed list, with some [] covering the empty list returned when a
batch-level exception was caught), plus the trace of single-send invocations,
post-upload actions and network operations. -/
structure BatchOut where
  filesProcessed : Option (List String)
  singleCalls : List String
  posted : List String
  ops : List (String × SendOp)
deriving Repr, DecidableEq

/-- Embeds process_batch.  A set stop flag at entry returns None.  A batch of
more than one file outside as_document mode goes through send_media_group: if
that call raises, the surrounding except returns the empty list (no fallback
runs); if it returns processed paths, each of them is appended, post-actioned
and counted; if it returns no processed paths, the sequential per-file
fallback runs over the whole batch.  Every other batch goes through the
individual per-file loop. -/
def process_batch (asDoc : Bool) (batch : List MFile) (netGroup : Except Unit Unit)
    (net : String → SendOp → Except Unit (Option TgResp)) (stop : Nat → Bool) : BatchOut :=
  if stop 0 then ⟨none, [], [], []⟩
  else if 1 < batch.length ∧ asDoc = false then
    let g := send_media_group asDoc netGroup net stop batch
    match g.result with
    | Except.error _ => ⟨some [], [], [], []⟩
    | Except.ok (_resp, processedPaths) =>
      if processedPaths.isEmpty then
        let s := runSingles asDoc net stop 1 batch
        ⟨some s.processed, s.calls, s.posted, s.ops⟩
      else
        ⟨some (processedPaths.map MFile.name), [], processedPaths.map MFile.name, []⟩
  else
    let s := runSingles asDoc net stop 1 batch
    ⟨some s.processed, s.calls, s.posted, s.ops⟩

/-- Embeds the batch chunking of run: successive windows of g files in the
original order (remaining[i:i+g] for i in range(0, len(remaining), g)). -/
def chunkBatches (g : Nat) (l : List α) : List (List α) :=
  if h : g = 0 ∨ l.isEmpty then []
  else l.take g :: chunkBatches g (l.drop g)
termination_by l.length
decreasing_by
  push_neg at h
  rw [List.length_drop]
  have hl : 0 < l.length := by
    cases l with
    | nil => simp at h
    | cons a t => simp
  omega

/-- Embeds the batch planning of run: with no_album set, one singleton batch
per remaining file; otherwise fixed windows of GROUP_SIZE = 5 files. -/
def planBatches (noAlbum : Bool) (remaining : List α) : List (List α) :=
  if noAlbum then remaining.map (fun p => [p]) else chunkBatches 5 remaining

/-- Embeds load_progress: the uploaded list stored in the progress file, or
the empty list when the file is absent or unreadable. -/
def load_progress : Option (List String) → List String
  | none => []
  | some l => l

/-- Embeds the as_completed loop of run over the batch futures: results lists
the per-batch return values of process_batch in completion order; before each
result the stop flag is checked and the loop breaks if it is set.  A truthy
(non-None, non-empty) result is appended to uploaded_files and the whole
accumulated list is written to the progress file.  Returns the final
uploaded_files list and the successive progress-file writes. -/
def dispatchLoop (stop : Nat → Bool) :
    List (Option (List String)) → Nat → List String → List String × List (List String)
  | [], _, acc => (acc, [])
  | r :: rs, k, acc =>
    if stop k then (acc, [])
    else
      match r with
      | some files =>
          if files.isEmpty then dispatchLoop stop rs (k + 1) acc
          else
            let acc2 := acc ++ files
            let rest := dispatchLoop stop rs (k + 1) acc2
            (rest.1, acc2 :: rest.2)
      | none => dispatchLoop stop rs (k + 1) acc

/-- Observable outcome of one run of the engine: the successive contents
written to the progress file, the progress-file content when the run ends
(none when the file is absent or was deleted), and the success flag passed to
the terminal done callback. -/
structure RunTrace where
  saves : List (List String)
  finalFile : Option (List String)
  success : Bool
deriving Repr, DecidableEq

/-- Embeds UploadWorker.run (with the requests library importable and no
fatal exception, the only code paths the claims concern).  fs0 is the
progress-file content at start, folder the directory listing, results the
completion-ordered outcomes of the submitted batch futures, and stop the
cancellation flag sampled at the successive loop checks.  With no media file
the run signals failure and leaves the progress file alone; otherwise the
resume set is loaded, remaining files are planned into batches, the dispatch
loop runs, and then the progress file is deleted and success is signalled
unconditionally. -/
def run (resume : Bool) (fs0 : Option (List String)) (folder : List MFile)
    (results : List (Option (List String))) (stop : Nat → Bool) (noAlbum : Bool) : RunTrace :=
  let allMedia := get_media_files folder
  if allMedia.isEmpty then
    { saves := [], finalFile := fs0, success := false }
  else
    let uploaded := if resume then load_progress fs0 else []
    let remaining := allMedia.filter (fun p => !(uploaded.contains p.name))
    let _batches := planBatches noAlbum remaining
    let d := dispatchLoop stop results 0 []
    { saves := d.2, finalFile := none, success := true }

/-- A lower-cased suffix in the video list is never in the image list. -/
lemma not_image_of_video_ext (s : String) (h : s ∈ VIDEO_EXTS) : s ∉ IMAGE_EXTS := by
  fin_cases h <;> decide

/-- A video file is not an image file: the two extension lists are disjoint. -/
lemma is_image_eq_false_of_is_video (f : MFile) (h : is_video f = true) :
    is_image f = false := by
  have hv : lowercase f.ext ∈ VIDEO_EXTS := of_decide_eq_true h
  exact decide_eq_false (not_image_of_video_ext _ hv)

/-- Joint specification of the chunking used by the batch planner: the chunks
concatenate back to the input, there are ceil(length / g) of them, and each
has at most g elements. -/
lemma chunkBatches_spec {α : Type _} (g : Nat) (hg : 0 < g) :
    ∀ (n : Nat) (l : List α), l.length ≤ n →
      (chunkBatches g l).flatten = l ∧
      (chunkBatches g l).length = (l.length + g - 1) / g ∧
      ∀ b ∈ chunkBatches g l, b.length ≤ g := by
  intro n
  induction n with
  | zero =>
    intro l hl
    have hnil : l = [] := List.length_eq_zero.mp (Nat.le_zero.mp hl)
    subst hnil
    rw [chunkBatches]
    refine ⟨by simp, ?_, by simp⟩
    simp [Nat.div_eq_of_lt (show g - 1 < g by omega)]
  | succ n ih =>
    intro l hl
    cases l with
    | nil =>
      rw [chunkBatches]
      refine ⟨by simp, ?_, by simp⟩
      simp [Nat.div_eq_of_lt (show g - 1 < g by omega)]
    | cons a t =>
      have hcond : ¬(g = 0 ∨ (a :: t).isEmpty = true) := by
        push_neg
        exact ⟨by omega, by simp⟩
      rw [chunkBatches, dif_neg hcond]
      have hdrop : ((a :: t).drop g).length ≤ n := by
        rw [List.length_drop]
        simp only [List.length_cons] at hl ⊢
        omega
      obtain ⟨ihj, ihl, ihb⟩ := ih ((a :: t).drop g) hdrop
      refine ⟨?_, ?_, ?_⟩
      · rw [List.flatten_cons, ihj, List.take_append_drop]
      · simp only [List.length_cons, ihl, List.length_drop]
        have key : t.length + 1 + g - 1 = t.length + g := by omega
        rw [key, Nat.add_div_right _ hg]
        rcases Nat.lt_or_ge t.length g with hgm | hgm
        · have h1 : t.length + 1 - g = 0 := by omega
          rw [h1]
          have h2 : (0 + g - 1) / g = 0 := Nat.div_eq_of_lt (by omega)
          have h3 : t.length / g = 0 := Nat.div_eq_of_lt (by omega)
          rw [h2, h3]
        · have h1 : t.length + 1 - g + g - 1 = t.length := by omega
          rw [h1]
      · intro b hb
        rcases List.mem_cons.mp hb with rfl | hb'
        · rw [List.length_take]
          exact min_le_left _ _
        · exact ihb b hb'

/-- C8: for a remaining list of length N, grouped mode chunks it into exactly
ceil(N/G) batches of size at most G whose concatenation is the input (the
source fixes G = 5), and no-album mode yields exactly N singleton batches in
input order. -/
theorem c8_batch_planner {α : Type _} (g : Nat) (hg : 0 < g) (l rem : List α) :
    (chunkBatches g l).flatten = l
    ∧ (chunkBatches g l).length = (l.length + g - 1) / g
    ∧ (∀ b ∈ chunkBatches g l, b.length ≤ g)
    ∧ planBatches false rem = chunkBatches 5 rem
    ∧ planBatches true rem = rem.map (fun p => [p])
    ∧ (planBatches true rem).length = rem.length
    ∧ (∀ b ∈ planBatches true rem, b.length = 1)
    ∧ (planBatches true rem).flatten = rem := by
  obtain ⟨hj, hl, hb⟩ := chunkBatches_spec g hg l.length l le_rfl
  refine ⟨hj, hl, hb, rfl, rfl, by simp [planBatches], ?_, ?_⟩
  · intro b hb'
    simp only [planBatches, if_pos, List.mem_map] at hb'
    obtain ⟨p, _, rfl⟩ := hb'
    rfl
  · simp only [planBatches, if_pos]
    induction rem with
    | nil => rfl
    | cons a t iht => simp [iht]

/-- Witness for C8 at the concrete scenario of the spec: 23 remaining files
with group limit 5 give 5 batches that concatenate back to the input, and
no-album mode on a 3-element list gives 3 singleton batches. -/
theorem c8_witness :
    (chunkBatches 5 (List.range 23)).length = (23 + 5 - 1) / 5
    ∧ (chunkBatches 5 (List.range 23)).flatten = List.range 23
    ∧ planBatches true [1, 2, 3] = [[1], [2], [3]] := by
  obtain ⟨hj, hl, -, -, hmap, -⟩ :=
    c8_batch_planner 5 (by decide) (List.range 23) ([1, 2, 3] : List Nat)
  exact ⟨by simpa using hl, hj, by simpa using hmap⟩

/-- C9: for a non-empty video file outside document mode, a failure of the
video operation triggers exactly one fallback through the document operation
before the file is handled as failed, and the call's result is the document
operation's result. -/
theorem c9_video_document_fallback (f : MFile) (net : SendOp → Except Unit (Option TgResp))
    (hv : is_video f = true) (hs : f.size ≠ 0)
    (herr : net SendOp.video = Except.error ()) :
    (send_single_by_type false net f).2 = [SendOp.video, SendOp.document]
    ∧ (send_single_by_type false net f).1
        = (match net SendOp.document with
           | Except.ok r => some r
           | Except.error _ => none) := by
  have himg : is_image f = false := is_image_eq_false_of_is_video f hv
  rw [send_single_by_type]
  rw [if_neg hs]
  simp only [Bool.false_eq_true, if_false, himg, hv, if_true, herr]
  cases hd : net SendOp.document <;> simp [hd]

/-- Witness for C9: a 7-byte .mp4 file against a remote that rejects the
video operation and accepts the document operation. -/
theorem c9_witness :
    (send_single_by_type false
        (fun op => if op = SendOp.video then Except.error () else Except.ok none)
        ⟨"v.mp4", ".mp4", 7⟩).2 = [SendOp.video, SendOp.document]
    ∧ (send_single_by_type false
        (fun op => if op = SendOp.video then Except.error () else Except.ok none)
        ⟨"v.mp4", ".mp4", 7⟩).1 = some none := by
  have h := c9_video_document_fallback ⟨"v.mp4", ".mp4", 7⟩
    (fun op => if op = SendOp.video then Except.error () else Except.ok none)
    (by decide) (by decide) (by simp)
  exact ⟨h.1, h.2⟩

/-- C10: a grouped send over a list of more than 10 valid (non-empty) files
builds its multipart request from the first 10 files only, yet on success
returns the entire valid list as processed. -/
theorem c10_group_truncation (paths : List MFile)
    (net : String → SendOp → Except Unit (Option TgResp)) (stop : Nat → Bool)
    (hvalid : ∀ f ∈ paths, 0 < f.size) (hlen : 10 < paths.length) :
    (send_media_group false (Except.ok ()) net stop paths).multipart = paths.take 10
    ∧ (send_media_group false (Except.ok ()) net stop paths).result
        = Except.ok (some (), paths)
    ∧ (send_media_group false (Except.ok ()) net stop paths).multipart.length = 10 := by
  have hne : paths.isEmpty = false := by
    cases paths with
    | nil => simp at hlen
    | cons a t => simp
  have hfilter : paths.filter (fun p => decide (0 < p.size)) = paths :=
    List.filter_eq_self.mpr (fun f hf => decide_eq_true (hvalid f hf))
  rw [send_media_group]
  simp only [hne, Bool.false_eq_true, if_false, hfilter]
  refine ⟨by simp [hne], by simp [hne], ?_⟩
  simp only [hne, Bool.false_eq_true, if_false, List.length_take]
  omega

/-- Witness for C10: eleven one-byte image files; the request body holds only
the first ten while all eleven are returned as processed. -/
theorem c10_witness :
    (send_media_group false (Except.ok ()) (fun _ _ => Except.ok none) (fun _ => false)
        (List.replicate 11 ⟨"p.jpg", ".jpg", 1⟩)).multipart
      = (List.replicate 11 (⟨"p.jpg", ".jpg", 1⟩ : MFile)).take 10
    ∧ (send_media_group false (Except.ok ()) (fun _ _ => Except.ok none) (fun _ => false)
        (List.replicate 11 ⟨"p.jpg", ".jpg", 1⟩)).multipart.length = 10 := by
  have h := c10_group_truncation (List.replicate 11 ⟨"p.jpg", ".jpg", 1⟩)
    (fun _ _ => Except.ok none) (fun _ => false)
    (by intro f hf; rw [List.eq_of_mem_replicate hf]; decide) (by decide)
  exact ⟨h.1, h.2.2⟩

/-- With the cancellation flag never set, the interruptible retry_after sleep
emits exactly its full budget of one-second ticks. -/
lemma sleepLoop429_no_stop : ∀ (u n : Nat),
    (sleepLoop429 (fun _ => false) u n).1 = List.replicate n SleepEv.secTick := by
  intro u n
  induction n generalizing u with
  | zero => rfl
  | succ n ih => simp [sleepLoop429, ih, List.replicate_succ]

/-- C6: when an attempt receives a 429 response carrying retry_after = W, the
retry loop sleeps through the interruptible one-second loop with budget W + 1
before the next attempt (so, absent cancellation, exactly W + 1 seconds in
1-second increments, the flag being checked before every increment by
sleepLoop429); when the 429 carries no retry_after, it instead sleeps the
exponential backoff BASE_BACKOFF * 2^(attempt-1) plus the drawn jitter. -/
theorem c6_rate_limit_sleep (W a t fuel retries : Nat) (outcome : Nat → AttemptOutcome)
    (jitter : Nat → ℚ) (stop : Nat → Bool) (hstop : stop t = false)
    (h429 : outcome (a + 1) = AttemptOutcome.response (some ⟨false, some 429, some W⟩)) :
    ((reqLoop outcome jitter stop retries (fuel + 1) a t).2.1
      = (sleepLoop429 stop (t + 1) (W + 1)).1
        ++ (reqLoop outcome jitter stop retries fuel (a + 1)
              (sleepLoop429 stop (t + 1) (W + 1)).2).2.1)
    ∧ (∀ u n, (sleepLoop429 (fun _ => false) u n).1 = List.replicate n SleepEv.secTick)
    ∧ ∀ outcome2 : Nat → AttemptOutcome,
        outcome2 (a + 1) = AttemptOutcome.response (some ⟨false, some 429, none⟩) →
        (reqLoop outcome2 jitter stop retries (fuel + 1) a t).2.1
          = SleepEv.backoff (BASE_BACKOFF * 2 ^ a + jitter (a + 1))
            :: (reqLoop outcome2 jitter stop retries fuel (a + 1) (t + 1)).2.1 := by
  refine ⟨?_, sleepLoop429_no_stop, ?_⟩
  · rw [reqLoop]
    simp [hstop, h429]
  · intro outcome2 h2
    rw [reqLoop]
    simp [hstop, h2]

/-- Witness for C6: a first attempt answered by 429 with retry_after = 2 and
no cancellation sleeps through the tick loop with budget 3. -/
theorem c6_witness :
    (reqLoop (fun _ => AttemptOutcome.response (some ⟨false, some 429, some 2⟩))
        (fun _ => 0) (fun _ => false) 2 2 0 0).2.1
      = (sleepLoop429 (fun _ => false) 1 3).1
        ++ (reqLoop (fun _ => AttemptOutcome.response (some ⟨false, some 429, some 2⟩))
              (fun _ => 0) (fun _ => false) 2 1 1
              (sleepLoop429 (fun _ => false) 1 3).2).2.1 :=
  (c6_rate_limit_sleep 2 0 0 1 2 _ _ _ rfl rfl).1

/-- The retry loop reports exhaustion whenever every attempt within the
remaining budget is unsuccessful, for any cancellation schedule. -/
lemma reqLoop_exhausted (outcome : Nat → AttemptOutcome) (jitter : Nat → ℚ)
    (stop : Nat → Bool) (retries : Nat) :
    ∀ (fuel attempt tick : Nat),
      (∀ b, attempt < b → b ≤ attempt + fuel → unsuccessful (outcome b) = true) →
      (reqLoop outcome jitter stop retries fuel attempt tick).1
        = ReqResult.exhausted retries := by
  intro fuel
  induction fuel with
  | zero => intro attempt tick _; rfl
  | succ fuel ih =>
    intro attempt tick hall
    have hnext : ∀ b, attempt + 1 < b → b ≤ attempt + 1 + fuel →
        unsuccessful (outcome b) = true :=
      fun b h1 h2 => hall b (by omega) (by omega)
    have hb : unsuccessful (outcome (attempt + 1)) = true := hall _ (by omega) (by omega)
    rw [reqLoop]
    by_cases hst : stop tick = true
    · simp [hst]
    · rw [if_neg (by simpa using hst)]
      rcases ho : outcome (attempt + 1) with _ | _ | j
      · exact ih (attempt + 1) (tick + 1) hnext
      · exact ih (attempt + 1) (tick + 1) hnext
      · cases j with
        | none => rw [ho] at hb; simp [unsuccessful] at hb
        | some jj =>
          rw [ho] at hb
          have hok : jj.ok = false := by simpa [unsuccessful] using hb
          dsimp only
          rw [if_neg (by simp [hok])]
          by_cases hc : jj.error_code = some 429
          · rw [if_pos hc]
            cases hra : jj.retry_after with
            | some ra =>
              dsimp only
              exact ih (attempt + 1) _ hnext
            | none =>
              dsimp only
              exact ih (attempt + 1) (tick + 1) hnext
          · rw [if_neg hc]
            exact ih (attempt + 1) (tick + 1) hnext

/-- The retry loop never uses more attempts than its remaining budget. -/
lemma reqLoop_attempts_le (outcome : Nat → AttemptOutcome) (jitter : Nat → ℚ)
    (stop : Nat → Bool) (retries : Nat) :
    ∀ (fuel attempt tick : Nat),
      (reqLoop outcome jitter stop retries fuel attempt tick).2.2 ≤ attempt + fuel := by
  intro fuel
  induction fuel with
  | zero => intro attempt tick; simp [reqLoop]
  | succ fuel ih =>
    intro attempt tick
    rw [reqLoop]
    by_cases hst : stop tick = true
    · simp [hst]
    · rw [if_neg (by simpa using hst)]
      rcases ho : outcome (attempt + 1) with _ | _ | j
      · dsimp only; have := ih (attempt + 1) (tick + 1); omega
      · dsimp only; have := ih (attempt + 1) (tick + 1); omega
      · cases j with
        | none => dsimp only; omega
        | some jj =>
          dsimp only
          by_cases hok : jj.ok = true
          · rw [if_pos hok]; dsimp only; omega
          · rw [if_neg hok]
            by_cases hc : jj.error_code = some 429
            · rw [if_pos hc]
              cases hra : jj.retry_after with
              | some ra =>
                dsimp only
                have := ih (attempt + 1) ((sleepLoop429 stop (tick + 1) (ra + 1)).2)
                omega
              | none =>
                dsimp only
                have := ih (attempt + 1) (tick + 1)
                omega
            · rw [if_neg hc]
              dsimp only
              have := ih (attempt + 1) (tick + 1)
              omega

/-- C7: if every one of the allowed attempts is unsuccessful, the wrapped
call fails with the retry-exhausted error, and no call ever uses more
attempts than its budget. -/
theorem c7_retry_exhaustion (outcome : Nat → AttemptOutcome) (jitter : Nat → ℚ)
    (stop : Nat → Bool) (retries : Nat)
    (hall : ∀ b, 1 ≤ b → b ≤ retries → unsuccessful (outcome b) = true) :
    (request_with_retries outcome jitter stop retries).1 = ReqResult.exhausted retries
    ∧ ∀ (o : Nat → AttemptOutcome) (jit : Nat → ℚ) (st : Nat → Bool),
        (request_with_retries o jit st retries).2.2 ≤ retries := by
  constructor
  · exact reqLoop_exhausted outcome jitter stop retries retries 0 0
      (fun b h1 h2 => hall b h1 (by omega))
  · intro o jit st
    have := reqLoop_attempts_le o jit st retries retries 0 0
    simpa using this

/-- Witness for C7: with every attempt failing at the network layer and a
budget of 2 attempts, the call reports exhaustion after 2 attempts. -/
theorem c7_witness :
    (request_with_retries (fun _ => AttemptOutcome.netFail) (fun _ => 0)
        (fun _ => false) 2).1 = ReqResult.exhausted 2 :=
  (c7_retry_exhaustion (fun _ => AttemptOutcome.netFail) (fun _ => 0)
    (fun _ => false) 2 (fun _ _ _ => rfl)).1

/-- Every progress-file write produced by the dispatch loop extends the
accumulator it started from, and successive writes extend each other. -/
lemma dispatchLoop_saves_mono (stop : Nat → Bool) :
    ∀ (rs : List (Option (List String))) (k : Nat) (acc : List String),
      (∀ s ∈ (dispatchLoop stop rs k acc).2, acc ⊆ s)
      ∧ List.Chain' (fun x y => x ⊆ y) (dispatchLoop stop rs k acc).2 := by
  intro rs
  induction rs with
  | nil => intro k acc; simp [dispatchLoop]
  | cons r rs ih =>
    intro k acc
    simp only [dispatchLoop]
    by_cases hst : stop k = true
    · simp [hst]
    · rw [if_neg (by simpa using hst)]
      cases r with
      | none => exact ih (k + 1) acc
      | some files =>
        dsimp only
        by_cases hf : files.isEmpty
        · rw [if_pos hf]
          exact ih (k + 1) acc
        · rw [if_neg hf]
          obtain ⟨ih1, ih2⟩ := ih (k + 1) (acc ++ files)
          constructor
          · intro s hs
            rcases List.mem_cons.mp hs with rfl | hs'
            · exact List.subset_append_left acc files
            · exact (List.subset_append_left acc files).trans (ih1 s hs')
          · rw [List.chain'_cons']
            constructor
            · intro y hy
              exact ih1 y (List.mem_of_mem_head? hy)
            · exact ih2

/-- Every name in a progress-file write of the dispatch loop comes from the
starting accumulator or from one of the truthy batch results. -/
lemma dispatchLoop_saves_src (stop : Nat → Bool) :
    ∀ (rs : List (Option (List String))) (k : Nat) (acc : List String)
      (s : List String), s ∈ (dispatchLoop stop rs k acc).2 →
      ∀ x ∈ s, x ∈ acc ∨ ∃ l, some l ∈ rs ∧ x ∈ l := by
  intro rs
  induction rs with
  | nil => intro k acc s hs; simp [dispatchLoop] at hs
  | cons r rs ih =>
    intro k acc s hs x hx
    simp only [dispatchLoop] at hs
    by_cases hst : stop k = true
    · rw [if_pos hst] at hs; simp at hs
    · rw [if_neg (by simpa using hst)] at hs
      cases r with
      | none =>
        rcases ih (k + 1) acc s hs x hx with h | ⟨l, hl, hxl⟩
        · exact Or.inl h
        · exact Or.inr ⟨l, List.mem_cons_of_mem _ hl, hxl⟩
      | some files =>
        dsimp only at hs
        by_cases hf : files.isEmpty
        · rw [if_pos hf] at hs
          rcases ih (k + 1) acc s hs x hx with h | ⟨l, hl, hxl⟩
          · exact Or.inl h
          · exact Or.inr ⟨l, List.mem_cons_of_mem _ hl, hxl⟩
        · rw [if_neg hf] at hs
          rcases List.mem_cons.mp hs with rfl | hs'
          · rcases List.mem_append.mp hx with h | h
            · exact Or.inl h
            · exact Or.inr ⟨files, List.mem_cons_self _ _, h⟩
          · rcases ih (k + 1) (acc ++ files) s hs' x hx with h | ⟨l, hl, hxl⟩
            · rcases List.mem_append.mp h with h' | h'
              · exact Or.inl h'
              · exact Or.inr ⟨files, List.mem_cons_self _ _, h'⟩
            · exact Or.inr ⟨l, List.mem_cons_of_mem _ hl, hxl⟩

/-- C1 (amended): the progress record is deleted at the end of every run that
found media files and completed its dispatch loop without a fatal error,
whether or not the run was cancelled and whether or not files remain
undelivered; it is left in place only when no media files were found. -/
theorem c1_record_deleted_unconditionally (resume : Bool) (fs0 : Option (List String))
    (folder : List MFile) (results : List (Option (List String))) (stop : Nat → Bool)
    (noAlbum : Bool) :
    (run resume fs0 folder results stop noAlbum).finalFile
      = if (get_media_files folder).isEmpty then fs0 else none := by
  rw [run]
  by_cases h : (get_media_files folder).isEmpty = true
  · rw [if_pos h, if_pos h]
  · rw [if_neg h, if_neg h]

/-- C1 counterexample: a run over one media file that is cancelled before any
batch completes (nothing is delivered, the saves trace is empty) still
deletes the pre-existing progress record, where the claim requires it to be
left in place. -/
theorem c1_counterexample :
    (run true (some ["a.jpg"]) [⟨"b.jpg", ".jpg", 5⟩] [none] (fun _ => true) false).saves = []
    ∧ (run true (some ["a.jpg"]) [⟨"b.jpg", ".jpg", 5⟩] [none]
        (fun _ => true) false).finalFile = none := by
  constructor <;> rfl

/-- C3 (amended): the terminal done signal carries success=false exactly when
no media files were found (given the requests library importable and no
fatal exception); a run stopped by cancellation before completion still
terminates with success=true, and a run with only per-file failures also
terminates with success=true. -/
theorem c3_success_signal (resume : Bool) (fs0 : Option (List String))
    (folder : List MFile) (results : List (Option (List String))) (stop : Nat → Bool)
    (noAlbum : Bool) :
    (run resume fs0 folder results stop noAlbum).success
      = !(get_media_files folder).isEmpty := by
  rw [run]
  by_cases h : (get_media_files folder).isEmpty = true
  · rw [if_pos h, h]
    rfl
  · have h' : (get_media_files folder).isEmpty = false := by simpa using h
    rw [if_neg h, h']
    rfl

/-- C3 counterexample: a run over one media file that is cancelled at the
first check, before anything is delivered, terminates with success=true,
where the claim requires success=false for a cancelled run. -/
theorem c3_counterexample :
    (run true none [⟨"c.jpg", ".jpg", 9⟩] [none] (fun _ => true) false).success = true
    ∧ (run true none [⟨"c.jpg", ".jpg", 9⟩] [none] (fun _ => true) false).saves = [] := by
  constructor <;> rfl

/-- C5 (amended): within a single run the progress-file writes are append-only
with respect to each other (each later write contains every earlier one), and
every written name comes from a batch result of the current run; the names
loaded from the pre-existing record at run start are not carried into the
writes, so a write need not be a superset of the record as it stood when the
run began. -/
theorem c5_saves_append_only_within_run (resume : Bool) (fs0 : Option (List String))
    (folder : List MFile) (results : List (Option (List String))) (stop : Nat → Bool)
    (noAlbum : Bool) :
    List.Chain' (fun x y => x ⊆ y) (run resume fs0 folder results stop noAlbum).saves
    ∧ ∀ s ∈ (run resume fs0 folder results stop noAlbum).saves, ∀ x ∈ s,
        ∃ l, some l ∈ results ∧ x ∈ l := by
  rw [run]
  by_cases h : (get_media_files folder).isEmpty = true
  · rw [if_pos h]
    exact ⟨List.chain'_nil, by intro s hs; simp at hs⟩
  · rw [if_neg h]
    refine ⟨(dispatchLoop_saves_mono stop results 0 []).2, ?_⟩
    intro s hs x hx
    rcases dispatchLoop_saves_src stop results 0 [] s hs x hx with h' | h'
    · simp at h'
    · exact h'

/-- C5 counterexample: resuming a run whose record holds a.jpg and delivering
b.jpg produces a progress-file write equal to b.jpg alone, dropping a.jpg,
where the claim requires every write to contain the names present at run
start. -/
theorem c5_counterexample :
    (run true (some ["a.jpg"]) [⟨"a.jpg", ".jpg", 3⟩, ⟨"b.jpg", ".jpg", 4⟩]
        [some ["b.jpg"]] (fun _ => false) false).saves = [["b.jpg"]]
    ∧ "a.jpg" ∈ load_progress (some ["a.jpg"])
    ∧ "a.jpg" ∉ (["b.jpg"] : List String) := by
  refine ⟨rfl, by simp [load_progress], by simp⟩

/-- With the cancellation flag never set, the sequential per-file loop sends,
appends, post-actions and counts every file of the batch in order. -/
lemma runSingles_no_stop (asDoc : Bool) (net : String → SendOp → Except Unit (Option TgResp))
    (stop : Nat → Bool) (hstop : ∀ k, stop k = false) :
    ∀ (k : Nat) (batch : List MFile),
      (runSingles asDoc net stop k batch).processed = batch.map MFile.name
      ∧ (runSingles asDoc net stop k batch).calls = batch.map MFile.name
      ∧ (runSingles asDoc net stop k batch).posted = batch.map MFile.name := by
  intro k batch
  induction batch generalizing k with
  | nil => exact ⟨rfl, rfl, rfl⟩
  | cons f fs ih =>
    obtain ⟨h1, h2, h3⟩ := ih (k + 1)
    simp only [runSingles, hstop k, Bool.false_eq_true, if_false, List.map_cons]
    exact ⟨by rw [h1], by rw [h2], by rw [h3]⟩

/-- C2 (amended): when the grouped media-group request itself fails after its
retries, the raised error is caught at the batch level and the whole batch is
returned as an empty processed list, with no sequential per-file fallback and
no single send attempted; the sequential fallback (which, absent
cancellation, invokes a single send for every file of the batch) runs only
when the grouped call returns successfully but reports no processed paths,
which happens when every file of the batch is empty. -/
theorem c2_group_failure_no_fallback (batch : List MFile) (netGroup : Except Unit Unit)
    (net : String → SendOp → Except Unit (Option TgResp)) (stop : Nat → Bool)
    (hlen : 1 < batch.length) :
    (stop 0 = false → netGroup = Except.error () →
      (batch.filter (fun p => decide (0 < p.size))).isEmpty = false →
      process_batch false batch netGroup net stop = ⟨some [], [], [], []⟩)
    ∧ ((∀ k, stop k = false) → (∀ f ∈ batch, f.size = 0) →
      (process_batch false batch netGroup net stop).singleCalls = batch.map MFile.name
      ∧ (process_batch false batch netGroup net stop).filesProcessed
          = some (batch.map MFile.name)) := by
  have hbne : batch.isEmpty = false := by
    cases batch with
    | nil => simp at hlen
    | cons a t => simp
  constructor
  · intro hstop0 hng hval
    subst hng
    rw [process_batch, if_neg (by simp [hstop0]), if_pos ⟨hlen, rfl⟩]
    rw [send_media_group, if_neg (by simp [hbne]), if_neg (by simp [hval])]
    rfl
  · intro hstop hempty
    have hval : batch.filter (fun p => decide (0 < p.size)) = [] := by
      rw [List.filter_eq_nil_iff]
      intro f hf
      simp [hempty f hf]
    rw [process_batch, if_neg (by simp [hstop 0]), if_pos ⟨hlen, rfl⟩]
    rw [send_media_group, if_neg (by simp [hbne]), hval]
    show (runSingles false net stop 1 batch).calls = batch.map MFile.name
      ∧ some (runSingles false net stop 1 batch).processed = some (batch.map MFile.name)
    obtain ⟨h1, h2, -⟩ := runSingles_no_stop false net stop hstop 1 batch
    exact ⟨h2, by rw [h1]⟩

/-- C2 counterexample: a two-file batch of valid files whose grouped request
fails after its retries is returned as an empty processed list with no single
send attempted for any of its files, where the claim requires a sequential
fallback send for every file of the batch. -/
theorem c2_counterexample :
    process_batch false [⟨"a.jpg", ".jpg", 3⟩, ⟨"b.jpg", ".jpg", 4⟩] (Except.error ())
        (fun _ _ => Except.ok none) (fun _ => false)
      = ⟨some [], [], [], []⟩ := rfl

/-- Witness for C2: two empty files make the grouped call report no processed
paths, and the fallback then invokes a single send for each of them. -/
theorem c2_witness :
    (process_batch false [⟨"x.jpg", ".jpg", 0⟩, ⟨"y.jpg", ".jpg", 0⟩] (Except.ok ())
        (fun _ _ => Except.ok none) (fun _ => false)).singleCalls = ["x.jpg", "y.jpg"] := by
  have h := (c2_group_failure_no_fallback
    [⟨"x.jpg", ".jpg", 0⟩, ⟨"y.jpg", ".jpg", 0⟩] (Except.ok ())
    (fun _ _ => Except.ok none) (fun _ => false) (by decide)).2
    (fun _ => rfl) (by decide)
  exact h.1

/-- C4 (amended): the file size is re-checked immediately before upload and an
empty file triggers no send operation (the send fails fast, returning None
without any network attempt), but the per-file caller ignores that return
value: the empty file is nevertheless appended to the processed list (and
hence saved to the progress record by the run loop), counted as delivered,
and the post-transfer action is applied to it. -/
theorem c4_empty_file_guard (f : MFile) (asDoc : Bool)
    (net0 : SendOp → Except Unit (Option TgResp)) (netGroup : Except Unit Unit)
    (net : String → SendOp → Except Unit (Option TgResp)) (stop : Nat → Bool)
    (hsize : f.size = 0) (hstop : ∀ k, stop k = false) :
    send_single_by_type asDoc net0 f = (none, [])
    ∧ (process_batch false [f] netGroup net stop).filesProcessed = some [f.name]
    ∧ (process_batch false [f] netGroup net stop).posted = [f.name]
    ∧ (process_batch false [f] netGroup net stop).ops = [] := by
  have hs : ∀ n : SendOp → Except Unit (Option TgResp),
      send_single_by_type asDoc n f = (none, []) := by
    intro n
    rw [send_single_by_type, if_pos hsize]
  have hs' : send_single_by_type false (net f.name) f = (none, []) := by
    rw [send_single_by_type, if_pos hsize]
  have hpb : process_batch false [f] netGroup net stop
      = ⟨some [f.name], [f.name], [f.name], []⟩ := by
    rw [process_batch, if_neg (by simp [hstop 0]), if_neg (by simp)]
    rw [runSingles, if_neg (by simp [hstop 1])]
    rw [runSingles]
    dsimp only
    rw [hs']
    rfl
  exact ⟨hs net0, by rw [hpb], by rw [hpb], by rw [hpb]⟩

/-- C4 counterexample: an empty file in an individual batch is never uploaded
(no network operation is attempted), yet it is recorded as processed and the
post-transfer move/delete action is applied to it, where the claim requires
it to be neither counted, nor recorded, nor post-actioned. -/
theorem c4_counterexample :
    (process_batch false [⟨"empty.jpg", ".jpg", 0⟩] (Except.ok ())
        (fun _ _ => Except.ok none) (fun _ => false)).ops = []
    ∧ (process_batch false [⟨"empty.jpg", ".jpg", 0⟩] (Except.ok ())
        (fun _ _ => Except.ok none) (fun _ => false)).posted = ["empty.jpg"]
    ∧ (process_batch false [⟨"empty.jpg", ".jpg", 0⟩] (Except.ok ())
        (fun _ _ => Except.ok none) (fun _ => false)).filesProcessed
          = some ["empty.jpg"] :=
  ⟨rfl, rfl, rfl⟩

/-- Witness for C4: a concrete empty file fails fast in send_single_by_type
yet is reported as processed by its batch. -/
theorem c4_witness :
    send_single_by_type false (fun _ => Except.ok none) ⟨"w.jpg", ".jpg", 0⟩ = (none, [])
    ∧ (process_batch false [⟨"w.jpg", ".jpg", 0⟩] (Except.ok ())
        (fun _ _ => Except.ok none) (fun _ => false)).filesProcessed = some ["w.jpg"] := by
  have h := c4_empty_file_guard ⟨"w.jpg", ".jpg", 0⟩ false (fun _ => Except.ok none)
    (Except.ok ()) (fun _ _ => Except.ok none) (fun _ => false) rfl (fun _ => rfl)
  exact ⟨h.1, h.2.1⟩

end TgUploader
